import Mathlib

/-!
# Verification development for `main.go` (react-pulumi-deploy-go)

The program is one helper, `getValueWithFallback`, and one linear procedure, the
function handed to `pulumi.Run` in `main`.  The procedure reads six configuration
keys, then issues thirteen calls to the provisioning engine (twelve resource
declarations and one managed-zone lookup), returning at the first error, and on
success exports four outputs.

Embedding.
* Go strings are embedded as Lean `String`s; `len` is the UTF-8 byte length.
* The configuration source is a partial map from keys to strings; `Config.Get`
  yields `""` for a missing key, as the Pulumi SDK does.
* The provisioning engine is external.  It is a parameter of the run: a function
  from the history of calls already made and the current request to either an
  error or a handle.  Nothing is assumed about it.
* `mainRun` is the text of `main` over what each call returns to it.  What the
  calls of the Pulumi Go SDK return for a given engine is `sdkReturn`: a resource
  constructor returns before the engine has answered, the zone lookup after.
* A Pulumi input/output value is embedded as its resolved string together with
  the positions (in the call sequence) of the engine calls whose answers it was
  built from.  Literals and configuration values carry no positions.
-/

namespace PulumiDeploy

/-! ## Strings -/

/-- Go builtin `len` on a string: its length in bytes. -/
def len (s : String) : Nat := s.utf8ByteSize

/-- Scan of `strings.Replace` with a non-empty `old` and no limit: at each position, if
`old` occurs there it is replaced by `new` and the scan resumes after the occurrence,
otherwise the character is kept.  `fuel` bounds the number of steps. -/
def replaceScan (old new : List Char) : Nat → List Char → List Char
  | 0, s => s
  | _ + 1, [] => []
  | fuel + 1, c :: cs =>
    if old.isPrefixOf (c :: cs) then
      new ++ replaceScan old new fuel ((c :: cs).drop old.length)
    else
      c :: replaceScan old new fuel cs

/-- Go `strings.ReplaceAll(s, old, new)`: all non-overlapping occurrences of `old`
replaced by `new`.  When `old` is empty, `new` is inserted before every character and at
the end.  (Go works on bytes; for UTF-8 text and a UTF-8 pattern the occurrences are the
same as on characters.) -/
def ReplaceAll (s old new : String) : String :=
  if old = new then s
  else if old.data = [] then ⟨new.data ++ s.data.flatMap (fun c => c :: new.data)⟩
  else ⟨replaceScan old.data new.data s.data.length s.data⟩

/-! ## Configuration -/

/-- Configuration source: the values set for the stack, by key. -/
structure Config where
  values : String → Option String

/-- Pulumi `cfg.Get(key)`: the configured value, or `""` when the key is not set. -/
def Config.Get (cfg : Config) (key : String) : String :=
  (cfg.values key).getD ""

/-- Source lines 13-22. -/
def getValueWithFallback (cfg : Config) (key fallback : String) : String :=
  let value := cfg.Get key
  if len value == 0 then
    fallback
  else
    value

/-! ## Values, requests and handles -/

/-- An input or output value: its resolved string and the positions, in the sequence of
engine calls, of the calls whose answers it was built from. -/
structure Value where
  val : String
  deps : List Nat
deriving DecidableEq, Repr

/-- A value fixed by the program text or the configuration (`pulumi.String(s)`, or a
plain Go string): it comes from no engine call. -/
def Value.lit (s : String) : Value := ⟨s, []⟩

/-- An attribute read from the handle answered by call number `i`. -/
def Value.ofCall (i : Nat) (s : String) : Value := ⟨s, [i]⟩

/-- Concatenation (Go `+`, `pulumi.Sprintf`): the strings are joined, the origins merged. -/
def Value.append (a b : Value) : Value := ⟨a.val ++ b.val, a.deps ++ b.deps⟩

structure BucketWebsiteArgs where
  MainPageSuffix : Value
  NotFoundPage : Value
deriving DecidableEq, Repr

structure BucketArgs where
  Location : Value
  Website : BucketWebsiteArgs
deriving DecidableEq, Repr

structure BucketIAMBindingArgs where
  Bucket : Value
  Role : Value
  Members : List Value
deriving DecidableEq, Repr

structure GoogleCloudFolderArgs where
  Path : Value
  BucketName : Value
deriving DecidableEq, Repr

structure BackendBucketArgs where
  BucketName : Value
  EnableCdn : Bool
deriving DecidableEq, Repr

structure LookupManagedZoneArgs where
  Name : Value
deriving DecidableEq, Repr

structure RecordSetArgs where
  Name : Value
  Type_ : Value
  Ttl : Int
  ManagedZone : Value
  Rrdatas : List Value
deriving DecidableEq, Repr

structure URLMapArgs where
  DefaultService : Value
deriving DecidableEq, Repr

structure TargetHttpProxyArgs where
  UrlMap : Value
deriving DecidableEq, Repr

structure GlobalForwardingRuleArgs where
  IpAddress : Value
  IpProtocol : Value
  PortRange : Value
  Target : Value
deriving DecidableEq, Repr

structure ManagedSslCertificateManagedArgs where
  Domains : List Value
deriving DecidableEq, Repr

structure ManagedSslCertificateArgs where
  Managed : ManagedSslCertificateManagedArgs
deriving DecidableEq, Repr

structure TargetHttpsProxyArgs where
  SslCertificates : List Value
  UrlMap : Value
deriving DecidableEq, Repr

/-- One call to the provisioning engine: a resource declaration with its logical name and
attribute record, or the managed-zone lookup.  `NewGlobalAddress` is called with `nil`
arguments. -/
inductive Request where
  | NewBucket (name : String) (args : BucketArgs)
  | NewBucketIAMBinding (name : String) (args : BucketIAMBindingArgs)
  | NewGoogleCloudFolder (name : String) (args : GoogleCloudFolderArgs)
  | NewBackendBucket (name : String) (args : BackendBucketArgs)
  | NewGlobalAddress (name : String)
  | LookupManagedZone (args : LookupManagedZoneArgs)
  | NewRecordSet (name : String) (args : RecordSetArgs)
  | NewURLMap (name : String) (args : URLMapArgs)
  | NewTargetHttpProxy (name : String) (args : TargetHttpProxyArgs)
  | NewGlobalForwardingRule (name : String) (args : GlobalForwardingRuleArgs)
  | NewManagedSslCertificate (name : String) (args : ManagedSslCertificateArgs)
  | NewTargetHttpsProxy (name : String) (args : TargetHttpsProxyArgs)
deriving DecidableEq, Repr

/-- The kind of an engine call. -/
inductive Kind where
  | Bucket | BucketIAMBinding | GoogleCloudFolder | BackendBucket | GlobalAddress
  | ManagedZoneLookup | RecordSet | URLMap | TargetHttpProxy | GlobalForwardingRule
  | ManagedSslCertificate | TargetHttpsProxy
deriving DecidableEq, Repr

def Request.kind : Request → Kind
  | .NewBucket _ _ => .Bucket
  | .NewBucketIAMBinding _ _ => .BucketIAMBinding
  | .NewGoogleCloudFolder _ _ => .GoogleCloudFolder
  | .NewBackendBucket _ _ => .BackendBucket
  | .NewGlobalAddress _ => .GlobalAddress
  | .LookupManagedZone _ => .ManagedZoneLookup
  | .NewRecordSet _ _ => .RecordSet
  | .NewURLMap _ _ => .URLMap
  | .NewTargetHttpProxy _ _ => .TargetHttpProxy
  | .NewGlobalForwardingRule _ _ => .GlobalForwardingRule
  | .NewManagedSslCertificate _ _ => .ManagedSslCertificate
  | .NewTargetHttpsProxy _ _ => .TargetHttpsProxy

/-- A resource declaration, as opposed to the read-only zone lookup. -/
def Request.isResource (q : Request) : Bool :=
  q.kind != Kind.ManagedZoneLookup

/-- The positions of the earlier calls whose answers the attributes of a request
reference. -/
def Request.refs : Request → List Nat
  | .NewBucket _ a => a.Location.deps ++ a.Website.MainPageSuffix.deps ++ a.Website.NotFoundPage.deps
  | .NewBucketIAMBinding _ a => a.Bucket.deps ++ a.Role.deps ++ a.Members.flatMap Value.deps
  | .NewGoogleCloudFolder _ a => a.Path.deps ++ a.BucketName.deps
  | .NewBackendBucket _ a => a.BucketName.deps
  | .NewGlobalAddress _ => []
  | .LookupManagedZone a => a.Name.deps
  | .NewRecordSet _ a =>
    a.Name.deps ++ a.Type_.deps ++ a.ManagedZone.deps ++ a.Rrdatas.flatMap Value.deps
  | .NewURLMap _ a => a.DefaultService.deps
  | .NewTargetHttpProxy _ a => a.UrlMap.deps
  | .NewGlobalForwardingRule _ a =>
    a.IpAddress.deps ++ a.IpProtocol.deps ++ a.PortRange.deps ++ a.Target.deps
  | .NewManagedSslCertificate _ a => a.Managed.Domains.flatMap Value.deps
  | .NewTargetHttpsProxy _ a => a.SslCertificates.flatMap Value.deps ++ a.UrlMap.deps

/-- What `main` reads from an answer of the engine: the resolved attributes `Name`,
`SelfLink`, `Address` of a resource handle, and `Name`, `DnsName` of a zone lookup
result.  An answer carries all of them; `main` reads the ones of the resource at hand. -/
structure Handle where
  Name : String
  SelfLink : String
  Address : String
  DnsName : String
deriving DecidableEq, Repr

/-- The provisioning engine, seen from the program: given the calls already made (oldest
first) and the current request, it accepts and answers with a handle, or rejects with an
error. -/
abbrev Engine (ε : Type) := List Request → Request → Except ε Handle

/-- What a run of `main` leaves behind: the calls made to the engine in order (the last
one included when it was rejected), the exported outputs in order, and the returned
error (`none` for Go `nil`). -/
structure Run (ε : Type) where
  calls : List Request
  exports : List (String × Value)
  err : Option ε

/-! ## The program -/

/-- The function run by `pulumi.Run` in `main` (source lines 25-181), against a
configuration source and an engine.  Each `match` is one call followed by
`if err != nil { return err }`.  The argument `engine` is applied as what the call
returns to `main`: the run is that of `main` over an engine whose verdict every call
returns, and, at `sdkReturn pending engine`, that of `main` over the Pulumi Go SDK. -/
def mainRun {ε : Type} (cfg : Config) (engine : Engine ε) : Run ε :=
  let path := getValueWithFallback cfg "path" "./build"
  let indexDocument := getValueWithFallback cfg "indexDocument" "index.html"
  let errorDocument := getValueWithFallback cfg "errorDocument" "error.html"
  let frontendAppBucketName :=
    getValueWithFallback cfg "frontendAppBucketName" "frontend-app-bucket"
  let domainName := getValueWithFallback cfg "domainName" "super-awesome-test-site.com"
  let zoneName := ReplaceAll domainName "." "-"
  let appHostName := getValueWithFallback cfg "appHostName" "app"
  -- lines 48-57
  let q0 := Request.NewBucket frontendAppBucketName
    { Location := Value.lit "US"
      Website :=
        { MainPageSuffix := Value.lit indexDocument
          NotFoundPage := Value.lit errorDocument } }
  match engine [] q0 with
  | .error err => ⟨[q0], [], some err⟩
  | .ok bucket =>
  let bucketName := Value.ofCall 0 bucket.Name
  -- lines 60-69
  let q1 := Request.NewBucketIAMBinding "bucket-iam-binding"
    { Bucket := bucketName
      Role := Value.lit "roles/storage.objectViewer"
      Members := [Value.lit "allUsers"] }
  match engine [q0] q1 with
  | .error err => ⟨[q0, q1], [], some err⟩
  | .ok _ =>
  -- lines 72-78
  let q2 := Request.NewGoogleCloudFolder "synced-folder"
    { Path := Value.lit path
      BucketName := bucketName }
  match engine [q0, q1] q2 with
  | .error err => ⟨[q0, q1, q2], [], some err⟩
  | .ok _ =>
  -- lines 81-87
  let q3 := Request.NewBackendBucket "backend-bucket"
    { BucketName := bucketName
      EnableCdn := true }
  match engine [q0, q1, q2] q3 with
  | .error err => ⟨[q0, q1, q2, q3], [], some err⟩
  | .ok backendBucket =>
  -- lines 90-93
  let q4 := Request.NewGlobalAddress "ip"
  match engine [q0, q1, q2, q3] q4 with
  | .error err => ⟨[q0, q1, q2, q3, q4], [], some err⟩
  | .ok ip =>
  let ipAddress := Value.ofCall 4 ip.Address
  -- lines 95-100
  let q5 := Request.LookupManagedZone { Name := Value.lit zoneName }
  match engine [q0, q1, q2, q3, q4] q5 with
  | .error err => ⟨[q0, q1, q2, q3, q4, q5], [], some err⟩
  | .ok envDnsZone =>
  -- lines 102-113
  let q6 := Request.NewRecordSet "dns"
    { Name := (Value.lit (appHostName ++ ".")).append (Value.ofCall 5 envDnsZone.DnsName)
      Type_ := Value.lit "A"
      Ttl := 300
      ManagedZone := Value.ofCall 5 envDnsZone.Name
      Rrdatas := [ipAddress] }
  match engine [q0, q1, q2, q3, q4, q5] q6 with
  | .error err => ⟨[q0, q1, q2, q3, q4, q5, q6], [], some err⟩
  | .ok _ =>
  -- lines 116-121
  let q7 := Request.NewURLMap "url-map"
    { DefaultService := Value.ofCall 3 backendBucket.SelfLink }
  match engine [q0, q1, q2, q3, q4, q5, q6] q7 with
  | .error err => ⟨[q0, q1, q2, q3, q4, q5, q6, q7], [], some err⟩
  | .ok urlMap =>
  -- lines 124-129
  let q8 := Request.NewTargetHttpProxy "http-proxy"
    { UrlMap := Value.ofCall 7 urlMap.SelfLink }
  match engine [q0, q1, q2, q3, q4, q5, q6, q7] q8 with
  | .error err => ⟨[q0, q1, q2, q3, q4, q5, q6, q7, q8], [], some err⟩
  | .ok httpProxy =>
  -- lines 132-140
  let q9 := Request.NewGlobalForwardingRule "http-forwarding-rule"
    { IpAddress := ipAddress
      IpProtocol := Value.lit "TCP"
      PortRange := Value.lit "80"
      Target := Value.ofCall 8 httpProxy.SelfLink }
  match engine [q0, q1, q2, q3, q4, q5, q6, q7, q8] q9 with
  | .error err => ⟨[q0, q1, q2, q3, q4, q5, q6, q7, q8, q9], [], some err⟩
  | .ok _ =>
  -- lines 142-152
  let q10 := Request.NewManagedSslCertificate zoneName
    { Managed :=
        { Domains := [Value.lit domainName, Value.lit (appHostName ++ "." ++ domainName)] } }
  match engine [q0, q1, q2, q3, q4, q5, q6, q7, q8, q9] q10 with
  | .error err => ⟨[q0, q1, q2, q3, q4, q5, q6, q7, q8, q9, q10], [], some err⟩
  | .ok sslCertificate =>
  -- lines 155-161
  let q11 := Request.NewTargetHttpsProxy "https-proxy"
    { SslCertificates := [Value.ofCall 10 sslCertificate.SelfLink]
      UrlMap := Value.ofCall 7 urlMap.SelfLink }
  match engine [q0, q1, q2, q3, q4, q5, q6, q7, q8, q9, q10] q11 with
  | .error err => ⟨[q0, q1, q2, q3, q4, q5, q6, q7, q8, q9, q10, q11], [], some err⟩
  | .ok httpsProxy =>
  -- lines 164-173
  let q12 := Request.NewGlobalForwardingRule "https-forwarding-rule"
    { IpAddress := ipAddress
      IpProtocol := Value.lit "TCP"
      PortRange := Value.lit "443"
      Target := Value.ofCall 11 httpsProxy.SelfLink }
  match engine [q0, q1, q2, q3, q4, q5, q6, q7, q8, q9, q10, q11] q12 with
  | .error err => ⟨[q0, q1, q2, q3, q4, q5, q6, q7, q8, q9, q10, q11, q12], [], some err⟩
  | .ok _ =>
  -- lines 176-180
  ⟨[q0, q1, q2, q3, q4, q5, q6, q7, q8, q9, q10, q11, q12],
    [ ("originURL",
        ((Value.lit "https://storage.googleapis.com/").append bucketName).append
          (Value.lit "/index.html")),
      ("originHostname", (Value.lit "storage.googleapis.com/").append bucketName),
      ("cdnURL", (Value.lit "http://").append ipAddress),
      ("cdnHostname", ipAddress) ],
    none⟩

/-! ## The SDK between the program and the engine -/

/-- What the calls of the Pulumi Go SDK return to `main`, for a given engine.  A resource
constructor (`storage.NewBucket`, `compute.NewURLMap`, and so on) queues the registration
and returns a handle with a `nil` error before the engine has answered: the verdict of
the engine on a resource is not the `err` of the call.  The outputs of the handle resolve
to what the engine answers; for a resource the engine rejects they never resolve, and
`pending` stands in their place (`main` passes outputs on and never reads them).
`dns.LookupManagedZone` is an invoke: it waits for the engine and returns its answer or
its error.  The engine is asked with the calls `main` made before. -/
def sdkReturn {ε : Type} (pending : Handle) (engine : Engine ε) : Engine ε := fun hist q =>
  if q.kind = Kind.ManagedZoneLookup then
    engine hist q
  else
    match engine hist q with
    | .ok h => .ok h
    | .error _ => .ok pending

/-- For each call of a run made through the SDK, in program order: whether its request
is sent to the engine, and whether it is sent and accepted.  A request is sent once the
outputs among its attributes have resolved, that is, when every call it references was
sent and accepted.  In which order the requests arrive is left to the SDK and is not
described. -/
def Run.settled {ε : Type} (engine : Engine ε) (r : Run ε) : List (Bool × Bool) :=
  (List.range r.calls.length).foldl
    (fun acc i =>
      match r.calls[i]? with
      | none => acc
      | some q =>
        let sent := q.refs.all (fun j => ((acc[j]?).map Prod.snd).getD false)
        let accepted := sent &&
          (match engine (r.calls.take i) q with
            | .ok _ => true
            | .error _ => false)
        acc ++ [(sent, accepted)])
    []

/-- The positions of the calls of a run made through the SDK whose request is sent to the
engine. -/
def Run.sent {ε : Type} (engine : Engine ε) (r : Run ε) : List Nat :=
  (List.range r.calls.length).filter
    (fun i => (((r.settled engine)[i]?).map Prod.fst).getD false)

/-! ## Vocabulary of the statements -/

/-- The character-wise effect of replacing "." by "-". -/
def dotToDash (c : Char) : Char := if c = '.' then '-' else c

/-- The kinds of the thirteen calls of `main`, in program order. -/
def declarationOrder : List Kind :=
  [ .Bucket, .BucketIAMBinding, .GoogleCloudFolder, .BackendBucket, .GlobalAddress,
    .ManagedZoneLookup, .RecordSet, .URLMap, .TargetHttpProxy, .GlobalForwardingRule,
    .ManagedSslCertificate, .TargetHttpsProxy, .GlobalForwardingRule ]

/-- For each of the thirteen calls, the positions of the calls its attributes reference
(one entry per referencing attribute). -/
def referenceTable : List (List Nat) :=
  [[], [0], [0], [0], [], [], [5, 5, 4], [3], [7], [4, 8], [], [10, 7], [4, 11]]

/-- The answer of the engine to call number `i` of a run: the engine applied to the calls
before it and to the call itself.  `none` when the run made no such call. -/
def Run.answer {ε : Type} (engine : Engine ε) (r : Run ε) (i : Nat) :
    Option (Except ε Handle) :=
  (r.calls[i]?).map (engine (r.calls.take i))

/-- Call `i` of a run references call `j`. -/
def Run.references {ε : Type} (r : Run ε) (i j : Nat) : Prop :=
  ∃ q, r.calls[i]? = some q ∧ j ∈ q.refs

/-- A list of calls replayed against the engine from the history `hist`: every call but
the last is accepted, and `err` is what the last call yields. -/
def Replays {ε : Type} (engine : Engine ε) : List Request → List Request → Option ε → Prop
  | _, [], _ => False
  | hist, [q], err =>
    match engine hist q with
    | .ok _ => err = none
    | .error e => err = some e
  | hist, q :: q2 :: qs, err =>
    (∃ h, engine hist q = .ok h) ∧ Replays engine (hist ++ [q]) (q2 :: qs) err

/-- The exported outputs as name and resolved string. -/
def Run.published {ε : Type} (r : Run ε) : List (String × String) :=
  r.exports.map (fun p => (p.1, p.2.val))

/-! ## Sample inputs -/

/-- A configuration with no key set. -/
def unsetConfig : Config := ⟨fun _ => none⟩

/-- A configuration setting the domain and the index document. -/
def exampleConfig : Config :=
  ⟨fun key =>
    if key = "domainName" then some "example.com"
    else if key = "indexDocument" then some "home.html"
    else if key = "errorDocument" then some ""
    else none⟩

/-- An engine that accepts every call.  Resources get their logical name followed by a
generated suffix as physical name; the zone lookup answers the zone asked for. -/
def sampleEngine : Engine String := fun _ q =>
  match q with
  | .NewBucket name _ =>
    .ok ⟨name ++ "-1a2b3c4", "https://www.googleapis.com/storage/v1/b/" ++ name, "", ""⟩
  | .NewGlobalAddress name =>
    .ok ⟨name ++ "-5d6e7f8", "https://www.googleapis.com/compute/v1/" ++ name, "203.0.113.7", ""⟩
  | .LookupManagedZone a => .ok ⟨a.Name.val, "", "", "example.com."⟩
  | .NewBucketIAMBinding name _ | .NewGoogleCloudFolder name _ | .NewBackendBucket name _
  | .NewRecordSet name _ | .NewURLMap name _ | .NewTargetHttpProxy name _
  | .NewGlobalForwardingRule name _ | .NewManagedSslCertificate name _
  | .NewTargetHttpsProxy name _ =>
    .ok ⟨name ++ "-9a8b7c6", "https://www.googleapis.com/compute/v1/" ++ name, "", ""⟩

/-- An engine that rejects the call at position `k` and otherwise behaves as
`sampleEngine`. -/
def rejectAt (k : Nat) : Engine String := fun hist q =>
  if hist.length = k then .error "googleapi: Error 403" else sampleEngine hist q

/-- The handle `main` holds for a resource whose outputs have not resolved. -/
def pendingHandle : Handle := ⟨"", "", "", ""⟩

/-! ## Auxiliary lemmas -/


theorem len_eq_zero_iff (s : String) : len s = 0 ↔ s = "" := by
  cases s with
  | mk l =>
    cases l with
    | nil => simp [len, String.utf8ByteSize, String.utf8ByteSize.go]
    | cons c cs =>
      have hc := Char.utf8Size_pos c
      have hne : (String.mk (c :: cs)) ≠ "" := by
        intro h
        have := congrArg String.data h
        simp at this
      simp only [len, String.utf8ByteSize, String.utf8ByteSize.go, hne, iff_false]
      omega

theorem getValueWithFallback_of_empty (cfg : Config) (key fallback : String)
    (h : cfg.Get key = "") : getValueWithFallback cfg key fallback = fallback := by
  have h0 : len (cfg.Get key) = 0 := (len_eq_zero_iff _).2 h
  simp [getValueWithFallback, h0]

theorem getValueWithFallback_of_nonempty (cfg : Config) (key fallback : String)
    (h : cfg.Get key ≠ "") : getValueWithFallback cfg key fallback = cfg.Get key := by
  have : len (cfg.Get key) ≠ 0 := fun h0 => h ((len_eq_zero_iff _).1 h0)
  simp [getValueWithFallback, this]

theorem replaceScan_dot (s : List Char) :
    ∀ fuel, s.length ≤ fuel → replaceScan ['.'] ['-'] fuel s = s.map dotToDash := by
  induction s with
  | nil => intro fuel _; cases fuel <;> simp [replaceScan]
  | cons c cs ih =>
    intro fuel h
    cases fuel with
    | zero => simp at h
    | succ n =>
      have hn : cs.length ≤ n := by simpa using h
      by_cases hc : c = '.'
      · subst hc
        simp [replaceScan, List.isPrefixOf, dotToDash, ih n hn]
      · have hc2 : ('.' == c) = false := by
          simp [beq_iff_eq]; exact fun h => hc h.symm
        simp [replaceScan, List.isPrefixOf, dotToDash, ih n hn, hc, hc2]

theorem ReplaceAll_dot_data (d : String) :
    (ReplaceAll d "." "-").data = d.data.map dotToDash := by
  have h1 : ("." : String) ≠ "-" := by decide
  have h2 : ("." : String).data = ['.'] := rfl
  have h3 : ("-" : String).data = ['-'] := rfl
  simp only [ReplaceAll, h1, if_false, h2, h3]
  exact replaceScan_dot d.data d.data.length (Nat.le_refl _)

theorem utf8ByteSize_go_map_dotToDash (l : List Char) :
    String.utf8ByteSize.go (l.map dotToDash) = String.utf8ByteSize.go l := by
  induction l with
  | nil => rfl
  | cons c cs ih =>
    simp only [List.map_cons, String.utf8ByteSize.go, ih]
    by_cases hc : c = '.'
    · subst hc; rfl
    · simp [dotToDash, hc]


theorem mainRun_replays {ε : Type} (cfg : Config) (engine : Engine ε) :
    Replays engine [] (mainRun cfg engine).calls (mainRun cfg engine).err := by
  unfold mainRun
  dsimp only
  repeat' split
  all_goals simp_all [Replays]

theorem Replays.at_position {ε : Type} (engine : Engine ε) (err : Option ε) :
    ∀ (qs hist : List Request), Replays engine hist qs err →
    ∀ k q, qs[k]? = some q →
      (k + 1 < qs.length → ∃ h, engine (hist ++ qs.take k) q = .ok h) ∧
      (k + 1 = qs.length →
        ((∀ e, engine (hist ++ qs.take k) q = .error e → err = some e) ∧
         ((∃ h, engine (hist ++ qs.take k) q = .ok h) → err = none))) := by
  intro qs
  induction qs with
  | nil => intro hist h; simp [Replays] at h
  | cons a as ih =>
    intro hist h k q hk
    cases as with
    | nil =>
      cases k with
      | zero =>
        simp at hk
        subst hk
        simp only [Replays] at h
        refine ⟨by simp, fun _ => ⟨?_, ?_⟩⟩
        · intro e he
          simp only [List.take_zero, List.append_nil] at he
          rw [he] at h
          exact h
        · rintro ⟨hd, hh⟩
          simp only [List.take_zero, List.append_nil] at hh
          rw [hh] at h
          exact h
      | succ n => simp at hk
    | cons b bs =>
      simp only [Replays] at h
      obtain ⟨hacc, hrest⟩ := h
      cases k with
      | zero =>
        simp at hk
        subst hk
        refine ⟨fun _ => by simpa using hacc, fun hlen => by simp at hlen⟩
      | succ n =>
        have hk2 : (b :: bs)[n]? = some q := by simpa using hk
        have := ih (hist ++ [a]) hrest n q hk2
        simpa [List.append_assoc, Nat.succ_lt_succ_iff] using this

/-! ## Configuration resolution -/

/-- C1: `getValueWithFallback cfg key fallback` is `cfg.Get key` when that is a non-empty
string, and is `fallback` when the key is unset or set to the empty string, `cfg.Get`
being `""` in both of these cases; the result is always one of the two, nothing else is
done to the value. -/
theorem getValueWithFallback_spec (cfg : Config) (key fallback : String) :
    (cfg.Get key ≠ "" → getValueWithFallback cfg key fallback = cfg.Get key) ∧
    ((cfg.values key = none ∨ cfg.values key = some "") →
      cfg.Get key = "" ∧ getValueWithFallback cfg key fallback = fallback) ∧
    (∀ v, cfg.values key = some v → v ≠ "" →
      getValueWithFallback cfg key fallback = v) := by
  refine ⟨getValueWithFallback_of_nonempty cfg key fallback, ?_, ?_⟩
  · intro h
    have hget : cfg.Get key = "" := by
      rcases h with h | h <;> simp [Config.Get, h]
    exact ⟨hget, getValueWithFallback_of_empty cfg key fallback hget⟩
  · intro v hv hne
    have hget : cfg.Get key = v := by simp [Config.Get, hv]
    rw [getValueWithFallback_of_nonempty cfg key fallback (by rw [hget]; exact hne), hget]

/-- Instance of C1 on `exampleConfig`: a set key, an unset key and a key set to the
empty string. -/
theorem getValueWithFallback_spec_witness :
    getValueWithFallback exampleConfig "domainName" "super-awesome-test-site.com"
      = "example.com" ∧
    getValueWithFallback exampleConfig "path" "./build" = "./build" ∧
    getValueWithFallback exampleConfig "errorDocument" "error.html" = "error.html" :=
  ⟨(getValueWithFallback_spec exampleConfig "domainName" "super-awesome-test-site.com").2.2
      "example.com" (by decide) (by decide),
   ((getValueWithFallback_spec exampleConfig "path" "./build").2.1
      (Or.inl (by decide))).2,
   ((getValueWithFallback_spec exampleConfig "errorDocument" "error.html").2.1
      (Or.inr (by decide))).2⟩

/-- C3: the zone name passed to the managed-zone lookup is the resolved `domainName` with
every "." replaced by "-" and every other character unchanged in place: same length (in
characters and in bytes), no "." left, and at every position the character of the
domain name, or "-" where that was "."; "example.com" gives "example-com" and
"a.b.c.org" gives "a-b-c-org". -/
theorem zoneName_spec :
    (∀ {ε : Type} (cfg : Config) (engine : Engine ε) (a : LookupManagedZoneArgs),
      Request.LookupManagedZone a ∈ (mainRun cfg engine).calls →
      a.Name.val = ReplaceAll
        (getValueWithFallback cfg "domainName" "super-awesome-test-site.com") "." "-") ∧
    (∀ d : String,
      (ReplaceAll d "." "-").length = d.length ∧
      len (ReplaceAll d "." "-") = len d ∧
      '.' ∉ (ReplaceAll d "." "-").data ∧
      (∀ (i : Nat) (c : Char), d.data[i]? = some c →
        (c ≠ '.' → (ReplaceAll d "." "-").data[i]? = some c) ∧
        (c = '.' → (ReplaceAll d "." "-").data[i]? = some '-'))) ∧
    ReplaceAll "example.com" "." "-" = "example-com" ∧
    ReplaceAll "a.b.c.org" "." "-" = "a-b-c-org" := by
  refine ⟨?_, ?_, by decide, by decide⟩
  · intro ε cfg engine a
    unfold mainRun
    dsimp only
    repeat' split
    all_goals simp_all [Value.lit]
  · intro d
    refine ⟨?_, ?_, ?_, ?_⟩
    · have key : ∀ s : String, s.length = s.data.length := fun s => by cases s; rfl
      rw [key, key, ReplaceAll_dot_data, List.length_map]
    · have key : ∀ s : String, s.utf8ByteSize = String.utf8ByteSize.go s.data :=
        fun s => by cases s; rfl
      unfold len
      rw [key, key, ReplaceAll_dot_data]
      exact utf8ByteSize_go_map_dotToDash _
    · rw [ReplaceAll_dot_data]
      intro h
      rcases List.mem_map.1 h with ⟨c, _, hc⟩
      by_cases hdot : c = '.'
      · subst hdot; exact absurd hc (by decide)
      · simp [dotToDash, hdot] at hc
    · intro i c hi
      rw [ReplaceAll_dot_data]
      constructor
      · intro hne; simp [List.getElem?_map, hi, dotToDash, hne]
      · intro he; simp [List.getElem?_map, hi, dotToDash, he]

/-- Instance of C3: the run on `exampleConfig` looks up the zone "example-com". -/
theorem zoneName_spec_witness :
    Request.LookupManagedZone ⟨Value.lit "example-com"⟩
        ∈ (mainRun exampleConfig sampleEngine).calls ∧
    (Value.lit "example-com").val = ReplaceAll
      (getValueWithFallback exampleConfig "domainName" "super-awesome-test-site.com")
      "." "-" :=
  ⟨by decide, zoneName_spec.1 exampleConfig sampleEngine _ (by decide)⟩


theorem mainRun_kinds {ε : Type} (cfg : Config) (engine : Engine ε) :
    (mainRun cfg engine).calls.map Request.kind
        = declarationOrder.take (mainRun cfg engine).calls.length ∧
    (mainRun cfg engine).calls.length ≤ 13 := by
  unfold mainRun
  dsimp only
  repeat' split
  all_goals exact ⟨rfl, by simp⟩

theorem mainRun_exports_of_err {ε : Type} (cfg : Config) (engine : Engine ε)
    (h : (mainRun cfg engine).err ≠ none) : (mainRun cfg engine).exports = [] := by
  revert h
  unfold mainRun
  dsimp only
  repeat' split
  all_goals simp

/-- What the replay lemma says of call `k` of a run, in terms of `Run.answer`. -/
theorem mainRun_answer {ε : Type} (cfg : Config) (engine : Engine ε) (k : Nat)
    (a : Except ε Handle) (hk : (mainRun cfg engine).answer engine k = some a) :
    k < (mainRun cfg engine).calls.length ∧
    (k + 1 < (mainRun cfg engine).calls.length → ∃ h, a = .ok h) ∧
    (k + 1 = (mainRun cfg engine).calls.length →
      ((∀ e, a = .error e → (mainRun cfg engine).err = some e) ∧
       ((∃ h, a = .ok h) → (mainRun cfg engine).err = none))) := by
  unfold Run.answer at hk
  cases hq : (mainRun cfg engine).calls[k]? with
  | none => simp [hq] at hk
  | some q =>
    have hlt : k < (mainRun cfg engine).calls.length := by
      rcases List.getElem?_eq_some_iff.1 hq with ⟨h, _⟩
      exact h
    have ha : engine ((mainRun cfg engine).calls.take k) q = a := by
      simpa [hq] using hk
    have := Replays.at_position engine _ _ [] (mainRun_replays cfg engine) k q hq
    simp only [List.nil_append, ha] at this
    exact ⟨hlt, this.1, this.2⟩

/-- If a call returns an error `e` to `main`, say call number `k` (counted from 0), then
that call is the last one made: the run consists of exactly the first `k + 1` calls of
the declaration order, the `k` calls before it all returned without error, nothing is
exported, and `main` returns `e` itself. -/
theorem mainRun_halts_at_error {ε : Type} (cfg : Config) (engine : Engine ε)
    (k : Nat) (e : ε)
    (hrej : (mainRun cfg engine).answer engine k = some (.error e)) :
    k < 13 ∧
    (mainRun cfg engine).calls.length = k + 1 ∧
    (mainRun cfg engine).calls.map Request.kind = declarationOrder.take (k + 1) ∧
    (∀ i, i < k → ∃ h, (mainRun cfg engine).answer engine i = some (.ok h)) ∧
    (mainRun cfg engine).exports = [] ∧
    (mainRun cfg engine).err = some e := by
  obtain ⟨hlt, hmid, hlast⟩ := mainRun_answer cfg engine k _ hrej
  have hlen : (mainRun cfg engine).calls.length = k + 1 := by
    by_contra hne
    have : k + 1 < (mainRun cfg engine).calls.length := by omega
    obtain ⟨h, hh⟩ := hmid this
    cases hh
  have herr : (mainRun cfg engine).err = some e := (hlast hlen.symm).1 e rfl
  obtain ⟨hkinds, hle⟩ := mainRun_kinds cfg engine
  refine ⟨by omega, hlen, by rw [hkinds, hlen], ?_, ?_, herr⟩
  · intro i hi
    have hi2 : i < (mainRun cfg engine).calls.length := by omega
    have hq : (mainRun cfg engine).calls[i]? = some ((mainRun cfg engine).calls[i]) :=
      List.getElem?_eq_getElem hi2
    have hans : (mainRun cfg engine).answer engine i
        = some (engine ((mainRun cfg engine).calls.take i) ((mainRun cfg engine).calls[i])) := by
      simp [Run.answer, hq]
    obtain ⟨_, hmid2, _⟩ := mainRun_answer cfg engine i _ hans
    obtain ⟨h, hh⟩ := hmid2 (by omega)
    exact ⟨h, by rw [hans, hh]⟩
  · exact mainRun_exports_of_err cfg engine (by rw [herr]; simp)

/-- An error returned by `main` is what the last call made returned. -/
theorem mainRun_error_is_last_return {ε : Type} (cfg : Config) (engine : Engine ε) (e : ε)
    (herr : (mainRun cfg engine).err = some e) :
    (mainRun cfg engine).answer engine ((mainRun cfg engine).calls.length - 1)
      = some (.error e) := by
  have hpos : 0 < (mainRun cfg engine).calls.length := by
    have := mainRun_replays cfg engine
    cases hc : (mainRun cfg engine).calls with
    | nil => rw [hc] at this; simp [Replays] at this
    | cons a as => simp
  have hk : (mainRun cfg engine).calls.length - 1 < (mainRun cfg engine).calls.length := by
    omega
  have hans : (mainRun cfg engine).answer engine ((mainRun cfg engine).calls.length - 1)
      = some (engine ((mainRun cfg engine).calls.take ((mainRun cfg engine).calls.length - 1))
          ((mainRun cfg engine).calls[(mainRun cfg engine).calls.length - 1])) := by
    simp [Run.answer, List.getElem?_eq_getElem hk]
  obtain ⟨_, _, hlast⟩ := mainRun_answer cfg engine _ _ hans
  obtain ⟨hE, hO⟩ := hlast (by omega)
  rw [hans]
  cases hres : engine ((mainRun cfg engine).calls.take ((mainRun cfg engine).calls.length - 1))
      ((mainRun cfg engine).calls[(mainRun cfg engine).calls.length - 1]) with
  | ok h =>
    have := hO ⟨h, hres⟩
    rw [herr] at this
    cases this
  | error e2 =>
    have := hE e2 hres
    rw [herr] at this
    cases this
    rfl

/-- Every one of the thirteen positions can be the position of the first error returned:
the call at position `k` returning an error stops the run after `k + 1` calls with that
error. -/
theorem rejectAt_stops_at_every_position :
    ∀ k, k < 13 →
      (mainRun exampleConfig (rejectAt k)).calls.length = k + 1 ∧
      (mainRun exampleConfig (rejectAt k)).err = some "googleapi: Error 403" ∧
      (mainRun exampleConfig (rejectAt k)).exports = [] := by
  decide

theorem mainRun_length_of_ok {ε : Type} (cfg : Config) (engine : Engine ε)
    (h : (mainRun cfg engine).err = none) :
    (mainRun cfg engine).calls.length = 13 ∧ (mainRun cfg engine).exports.length = 4 := by
  revert h
  unfold mainRun
  dsimp only
  repeat' split
  all_goals simp

theorem mainRun_kind_at {ε : Type} (cfg : Config) (engine : Engine ε) (k : Nat)
    (q : Request) (hq : (mainRun cfg engine).calls[k]? = some q) :
    k < 13 ∧ declarationOrder[k]? = some q.kind := by
  have hk : k < (mainRun cfg engine).calls.length := (List.getElem?_eq_some_iff.1 hq).1
  obtain ⟨hkinds, hle⟩ := mainRun_kinds cfg engine
  have hmap : ((mainRun cfg engine).calls.map Request.kind)[k]? = some q.kind := by
    simp [List.getElem?_map, hq]
  rw [hkinds, List.getElem?_take] at hmap
  simp only [hk, if_true] at hmap
  exact ⟨by omega, hmap⟩

theorem declarationOrder_lookup_position :
    ∀ k, k < 13 →
      (declarationOrder[k]? = some Kind.ManagedZoneLookup ↔ k = 5) := by
  decide

theorem sdkReturn_of_lookup {ε : Type} (pending : Handle) (engine : Engine ε)
    (hist : List Request) (q : Request) (h : q.kind = Kind.ManagedZoneLookup) :
    sdkReturn pending engine hist q = engine hist q := by
  simp [sdkReturn, h]

theorem sdkReturn_of_resource {ε : Type} (pending : Handle) (engine : Engine ε)
    (hist : List Request) (q : Request) (h : q.kind ≠ Kind.ManagedZoneLookup) :
    ∃ hd, sdkReturn pending engine hist q = .ok hd := by
  simp only [sdkReturn, h, if_false]
  cases engine hist q with
  | ok hd => exact ⟨hd, rfl⟩
  | error _ => exact ⟨pending, rfl⟩

/-- Over the SDK, the one call that can return an error to `main` is the zone lookup, and
the error is the one the engine rejected it with. -/
theorem sdk_error_position {ε : Type} (cfg : Config) (pending : Handle)
    (engine : Engine ε) (k : Nat) (e : ε)
    (h : (mainRun cfg (sdkReturn pending engine)).answer (sdkReturn pending engine) k
      = some (.error e)) :
    k = 5 ∧
    (mainRun cfg (sdkReturn pending engine)).answer engine 5 = some (.error e) := by
  unfold Run.answer at h
  cases hq : (mainRun cfg (sdkReturn pending engine)).calls[k]? with
  | none => simp [hq] at h
  | some q =>
    have hret : sdkReturn pending engine
        ((mainRun cfg (sdkReturn pending engine)).calls.take k) q = .error e := by
      simpa [hq] using h
    obtain ⟨hk13, hkind⟩ := mainRun_kind_at cfg _ k q hq
    by_cases hl : q.kind = Kind.ManagedZoneLookup
    · have hk5 : k = 5 := (declarationOrder_lookup_position k hk13).1 (by rw [hkind, hl])
      subst hk5
      rw [sdkReturn_of_lookup pending engine _ q hl] at hret
      exact ⟨rfl, by simp [Run.answer, hq, hret]⟩
    · obtain ⟨hd, hok⟩ := sdkReturn_of_resource pending engine
        ((mainRun cfg (sdkReturn pending engine)).calls.take k) q hl
      rw [hok] at hret
      cases hret

/-- C2, as stated, fails: over the SDK, the engine rejecting the IAM binding (call
number 1) does not stop `main`, which makes all thirteen calls, exports the four outputs
and returns no error. -/
theorem engine_rejection_counterexample :
    (mainRun exampleConfig (sdkReturn pendingHandle (rejectAt 1))).answer (rejectAt 1) 1
      = some (.error "googleapi: Error 403") ∧
    (mainRun exampleConfig (sdkReturn pendingHandle (rejectAt 1))).calls.length = 13 ∧
    (mainRun exampleConfig (sdkReturn pendingHandle (rejectAt 1))).exports.length = 4 ∧
    (mainRun exampleConfig (sdkReturn pendingHandle (rejectAt 1))).err = none :=
  ⟨rfl, by decide, by decide, by decide⟩

/-- C2, amended: if a call returns an error to `main`, then for every position `k` of
that call: it is the last call made, the `k` calls before it returned without error, the
run is the first `k + 1` calls of the declaration order, nothing is exported and `main`
returns that same error.  Over the SDK the zone lookup, always reached, is the one call
that returns the rejection of the engine: rejected, it ends the run after six calls with
the error of the engine; accepted, `main` makes all thirteen calls, exports the four
outputs and returns no error, whatever the engine says of the resources; and an error
returned by `main` is the rejection of the lookup. -/
theorem main_halts_at_first_returned_error {ε : Type} (cfg : Config) :
    (∀ (ret : Engine ε) (k : Nat) (e : ε),
      (mainRun cfg ret).answer ret k = some (.error e) →
      k < 13 ∧
      (mainRun cfg ret).calls.length = k + 1 ∧
      (mainRun cfg ret).calls.map Request.kind = declarationOrder.take (k + 1) ∧
      (∀ i, i < k → ∃ h, (mainRun cfg ret).answer ret i = some (.ok h)) ∧
      (mainRun cfg ret).exports = [] ∧
      (mainRun cfg ret).err = some e) ∧
    (∀ (pending : Handle) (engine : Engine ε),
      5 < (mainRun cfg (sdkReturn pending engine)).calls.length ∧
      (∀ e, (mainRun cfg (sdkReturn pending engine)).answer engine 5 = some (.error e) →
        (mainRun cfg (sdkReturn pending engine)).calls.length = 6 ∧
        (mainRun cfg (sdkReturn pending engine)).exports = [] ∧
        (mainRun cfg (sdkReturn pending engine)).err = some e) ∧
      ((∃ h, (mainRun cfg (sdkReturn pending engine)).answer engine 5 = some (.ok h)) →
        (mainRun cfg (sdkReturn pending engine)).calls.length = 13 ∧
        (mainRun cfg (sdkReturn pending engine)).exports.length = 4 ∧
        (mainRun cfg (sdkReturn pending engine)).err = none) ∧
      (∀ e, (mainRun cfg (sdkReturn pending engine)).err = some e →
        (mainRun cfg (sdkReturn pending engine)).answer engine 5 = some (.error e))) := by
  refine ⟨fun ret k e h => mainRun_halts_at_error cfg ret k e h, ?_⟩
  intro pending engine
  have hfrom : ∀ e, (mainRun cfg (sdkReturn pending engine)).err = some e →
      (mainRun cfg (sdkReturn pending engine)).calls.length = 6 ∧
      (mainRun cfg (sdkReturn pending engine)).answer engine 5 = some (.error e) := by
    intro e he
    have hlast := mainRun_error_is_last_return cfg (sdkReturn pending engine) e he
    obtain ⟨hk, hans⟩ := sdk_error_position cfg pending engine _ e hlast
    have hlt := (mainRun_answer cfg (sdkReturn pending engine) _ _ hlast).1
    exact ⟨by omega, hans⟩
  have hreach : 5 < (mainRun cfg (sdkReturn pending engine)).calls.length := by
    cases herr : (mainRun cfg (sdkReturn pending engine)).err with
    | none => rw [(mainRun_length_of_ok cfg _ herr).1]; decide
    | some e => rw [(hfrom e herr).1]; decide
  refine ⟨hreach, ?_, ?_, fun e he => (hfrom e he).2⟩
  · intro e he
    have hq : (mainRun cfg (sdkReturn pending engine)).calls[5]?
        = some ((mainRun cfg (sdkReturn pending engine)).calls[5]) :=
      List.getElem?_eq_getElem hreach
    obtain ⟨_, hkind⟩ := mainRun_kind_at cfg _ 5 _ hq
    have hl : ((mainRun cfg (sdkReturn pending engine)).calls[5]).kind
        = Kind.ManagedZoneLookup := by
      have h5 : declarationOrder[5]? = some Kind.ManagedZoneLookup := by decide
      rw [h5] at hkind
      exact (Option.some.inj hkind).symm
    have hsdk : (mainRun cfg (sdkReturn pending engine)).answer (sdkReturn pending engine) 5
        = some (.error e) := by
      simp only [Run.answer, hq, Option.map_some'] at he ⊢
      rw [sdkReturn_of_lookup pending engine _ _ hl]
      exact he
    obtain ⟨_, hlen, _, _, hexp, herr⟩ := mainRun_halts_at_error cfg _ 5 e hsdk
    exact ⟨hlen, hexp, herr⟩
  · rintro ⟨h, hok⟩
    have herr : (mainRun cfg (sdkReturn pending engine)).err = none := by
      cases herr : (mainRun cfg (sdkReturn pending engine)).err with
      | none => rfl
      | some e =>
        have := (hfrom e herr).2
        rw [hok] at this
        cases this
    exact ⟨(mainRun_length_of_ok cfg _ herr).1, (mainRun_length_of_ok cfg _ herr).2, herr⟩

/-- Instance of the amended C2: a call returning an error at position 1, and, over the
SDK, an engine rejecting the zone lookup and an engine accepting it while rejecting the
last forwarding rule. -/
theorem main_halts_at_first_returned_error_witness :
    ((mainRun exampleConfig (rejectAt 1)).calls.length = 2 ∧
      (mainRun exampleConfig (rejectAt 1)).exports = [] ∧
      (mainRun exampleConfig (rejectAt 1)).err = some "googleapi: Error 403") ∧
    ((mainRun exampleConfig (sdkReturn pendingHandle (rejectAt 5))).calls.length = 6 ∧
      (mainRun exampleConfig (sdkReturn pendingHandle (rejectAt 5))).exports = [] ∧
      (mainRun exampleConfig (sdkReturn pendingHandle (rejectAt 5))).err
        = some "googleapi: Error 403") ∧
    ((mainRun exampleConfig (sdkReturn pendingHandle (rejectAt 12))).calls.length = 13 ∧
      (mainRun exampleConfig (sdkReturn pendingHandle (rejectAt 12))).exports.length = 4 ∧
      (mainRun exampleConfig (sdkReturn pendingHandle (rejectAt 12))).err = none) :=
  have hA := (main_halts_at_first_returned_error exampleConfig).1 (rejectAt 1) 1
    "googleapi: Error 403" rfl
  have hB := ((main_halts_at_first_returned_error exampleConfig).2 pendingHandle
    (rejectAt 5)).2.1 "googleapi: Error 403" rfl
  have hC := ((@main_halts_at_first_returned_error String exampleConfig).2
    pendingHandle (rejectAt 12)).2.2.1 ⟨_, rfl⟩
  ⟨⟨hA.2.1, hA.2.2.2.2.1, hA.2.2.2.2.2⟩, hB, hC⟩

/-- Which requests are sent to the engine over the SDK, on `exampleConfig`: all thirteen
when the engine rejects the IAM binding or the last forwarding rule; the bucket, the
global address, the zone lookup, the record set and the certificate when it rejects the
bucket; the first six when it rejects the zone lookup. -/
theorem sent_requests_examples :
    (mainRun exampleConfig (sdkReturn pendingHandle (rejectAt 1))).sent (rejectAt 1)
      = List.range 13 ∧
    (mainRun exampleConfig (sdkReturn pendingHandle (rejectAt 12))).sent (rejectAt 12)
      = List.range 13 ∧
    (mainRun exampleConfig (sdkReturn pendingHandle (rejectAt 0))).sent (rejectAt 0)
      = [0, 4, 5, 6, 10] ∧
    (mainRun exampleConfig (sdkReturn pendingHandle (rejectAt 5))).sent (rejectAt 5)
      = List.range 6 := by
  decide

/-! ## Defaults -/

/-- C4: with the six configuration keys unset or empty, the six settings resolve to
"./build", "index.html", "error.html", "frontend-app-bucket",
"super-awesome-test-site.com" and "app", and these are the values in the calls: the first
call declares the bucket under the name "frontend-app-bucket" with main page suffix
"index.html" and not-found page "error.html"; the synced folder, whenever the run
reaches it, has path "./build"; the zone lookup, whenever reached, asks for
"super-awesome-test-site-com"; the certificate, whenever reached, covers the domain and
"app" under it.  A run without error reaches all of them. -/
theorem main_defaults {ε : Type} (cfg : Config) (engine : Engine ε)
    (hunset : ∀ key ∈ ["path", "indexDocument", "errorDocument", "frontendAppBucketName",
      "domainName", "appHostName"], cfg.Get key = "") :
    (getValueWithFallback cfg "path" "./build" = "./build" ∧
     getValueWithFallback cfg "indexDocument" "index.html" = "index.html" ∧
     getValueWithFallback cfg "errorDocument" "error.html" = "error.html" ∧
     getValueWithFallback cfg "frontendAppBucketName" "frontend-app-bucket"
       = "frontend-app-bucket" ∧
     getValueWithFallback cfg "domainName" "super-awesome-test-site.com"
       = "super-awesome-test-site.com" ∧
     getValueWithFallback cfg "appHostName" "app" = "app") ∧
    (mainRun cfg engine).calls[0]? = some (Request.NewBucket "frontend-app-bucket"
      { Location := Value.lit "US"
        Website :=
          { MainPageSuffix := Value.lit "index.html"
            NotFoundPage := Value.lit "error.html" } }) ∧
    (∀ q, (mainRun cfg engine).calls[2]? = some q →
      ∃ bucketName, q = Request.NewGoogleCloudFolder "synced-folder"
        { Path := Value.lit "./build", BucketName := bucketName }) ∧
    (∀ q, (mainRun cfg engine).calls[5]? = some q →
      q = Request.LookupManagedZone { Name := Value.lit "super-awesome-test-site-com" }) ∧
    (∀ q, (mainRun cfg engine).calls[10]? = some q →
      q = Request.NewManagedSslCertificate "super-awesome-test-site-com"
        { Managed := { Domains := [Value.lit "super-awesome-test-site.com",
            Value.lit "app.super-awesome-test-site.com"] } }) ∧
    ((mainRun cfg engine).err = none → (mainRun cfg engine).calls.length = 13) := by
  have h1 := getValueWithFallback_of_empty cfg "path" "./build" (hunset _ (by simp))
  have h2 := getValueWithFallback_of_empty cfg "indexDocument" "index.html"
    (hunset _ (by simp))
  have h3 := getValueWithFallback_of_empty cfg "errorDocument" "error.html"
    (hunset _ (by simp))
  have h4 := getValueWithFallback_of_empty cfg "frontendAppBucketName"
    "frontend-app-bucket" (hunset _ (by simp))
  have h5 := getValueWithFallback_of_empty cfg "domainName" "super-awesome-test-site.com"
    (hunset _ (by simp))
  have h6 := getValueWithFallback_of_empty cfg "appHostName" "app" (hunset _ (by simp))
  have hz : ReplaceAll "super-awesome-test-site.com" "." "-"
      = "super-awesome-test-site-com" := by decide
  have hd : ("app" : String) ++ "." ++ "super-awesome-test-site.com"
      = "app.super-awesome-test-site.com" := by decide
  refine ⟨⟨h1, h2, h3, h4, h5, h6⟩, ?_⟩
  unfold mainRun
  dsimp only
  simp only [h1, h2, h3, h4, h5, h6, hz, hd]
  repeat' split
  all_goals simp

/-- Instance of C4 on the configuration with no key set. -/
theorem main_defaults_witness :
    (∀ key ∈ ["path", "indexDocument", "errorDocument", "frontendAppBucketName",
      "domainName", "appHostName"], unsetConfig.Get key = "") ∧
    (mainRun unsetConfig sampleEngine).calls[0]? = some (Request.NewBucket
      "frontend-app-bucket"
      { Location := Value.lit "US"
        Website :=
          { MainPageSuffix := Value.lit "index.html"
            NotFoundPage := Value.lit "error.html" } }) ∧
    (mainRun unsetConfig sampleEngine).calls.length = 13 :=
  ⟨by decide, (main_defaults unsetConfig sampleEngine (by decide)).2.1,
    (main_defaults unsetConfig sampleEngine (by decide)).2.2.2.2.2 (by decide)⟩


/-! ## Outputs -/

/-- C5, as stated, fails: with no key set and an engine that gives the bucket a generated
physical name, the run succeeds and `originURL` is built from that physical name, not
from the resolved `frontendAppBucketName`. -/
theorem originURL_counterexample :
    (mainRun unsetConfig sampleEngine).err = none ∧
    getValueWithFallback unsetConfig "frontendAppBucketName" "frontend-app-bucket"
      = "frontend-app-bucket" ∧
    (mainRun unsetConfig sampleEngine).published.lookup "originURL"
      = some "https://storage.googleapis.com/frontend-app-bucket-1a2b3c4/index.html" ∧
    (mainRun unsetConfig sampleEngine).published.lookup "originURL"
      ≠ some ("https://storage.googleapis.com/"
          ++ getValueWithFallback unsetConfig "frontendAppBucketName" "frontend-app-bucket"
          ++ "/index.html") := by
  decide

/-- C5, amended: in a run without error, the bucket is declared under the resolved
`frontendAppBucketName`, and the exported `originURL` is
"https://storage.googleapis.com/", then the `Name` of the handle the engine answered for
the bucket, then "/index.html", whatever `indexDocument` is; it is built from the
resolved `frontendAppBucketName` when the engine gave the bucket that name. -/
theorem originURL_spec {ε : Type} (cfg : Config) (engine : Engine ε)
    (hok : (mainRun cfg engine).err = none) :
    ∃ bucket : Handle,
      (mainRun cfg engine).answer engine 0 = some (.ok bucket) ∧
      (∃ args, (mainRun cfg engine).calls[0]? = some (Request.NewBucket
        (getValueWithFallback cfg "frontendAppBucketName" "frontend-app-bucket") args)) ∧
      (mainRun cfg engine).published.lookup "originURL"
        = some ("https://storage.googleapis.com/" ++ bucket.Name ++ "/index.html") ∧
      (bucket.Name = getValueWithFallback cfg "frontendAppBucketName" "frontend-app-bucket" →
        (mainRun cfg engine).published.lookup "originURL"
          = some ("https://storage.googleapis.com/"
              ++ getValueWithFallback cfg "frontendAppBucketName" "frontend-app-bucket"
              ++ "/index.html")) := by
  revert hok
  unfold mainRun
  dsimp only
  repeat' split
  all_goals simp_all [Run.answer, Run.published, Value.append, Value.lit, Value.ofCall]

/-- Instance of the amended C5: `indexDocument` set to "home.html", the URL still ends in
"/index.html". -/
theorem originURL_spec_witness :
    ∃ bucket : Handle,
      (mainRun exampleConfig sampleEngine).answer sampleEngine 0 = some (.ok bucket) ∧
      (mainRun exampleConfig sampleEngine).published.lookup "originURL"
        = some ("https://storage.googleapis.com/" ++ bucket.Name ++ "/index.html") :=
  let ⟨b, h1, _, h3, _⟩ := originURL_spec exampleConfig sampleEngine (by decide)
  ⟨b, h1, h3⟩


/-- C10: when every call made by `main` is accepted, `main` returns no error and
publishes exactly four outputs, in this order: `originURL`; `originHostname`, which is
"storage.googleapis.com/" followed by the `Name` of the bucket handle; `cdnURL`, which is
"http://" followed by the `Address` of the global address handle; and `cdnHostname`,
which is that address itself. -/
theorem main_outputs {ε : Type} (cfg : Config) (engine : Engine ε)
    (hacc : ∀ i, i < (mainRun cfg engine).calls.length →
      ∃ h, (mainRun cfg engine).answer engine i = some (.ok h)) :
    (mainRun cfg engine).err = none ∧
    ∃ bucket ip : Handle,
      (mainRun cfg engine).answer engine 0 = some (.ok bucket) ∧
      (mainRun cfg engine).answer engine 4 = some (.ok ip) ∧
      ((mainRun cfg engine).calls.map Request.kind)[0]? = some Kind.Bucket ∧
      ((mainRun cfg engine).calls.map Request.kind)[4]? = some Kind.GlobalAddress ∧
      (mainRun cfg engine).published =
        [ ("originURL", "https://storage.googleapis.com/" ++ bucket.Name ++ "/index.html"),
          ("originHostname", "storage.googleapis.com/" ++ bucket.Name),
          ("cdnURL", "http://" ++ ip.Address),
          ("cdnHostname", ip.Address) ] ∧
      (mainRun cfg engine).exports.map Prod.fst
        = ["originURL", "originHostname", "cdnURL", "cdnHostname"] ∧
      (mainRun cfg engine).exports.length = 4 := by
  have hpos : 0 < (mainRun cfg engine).calls.length := by
    have := mainRun_replays cfg engine
    cases hc : (mainRun cfg engine).calls with
    | nil => rw [hc] at this; simp [Replays] at this
    | cons a as => simp
  have hok : (mainRun cfg engine).err = none := by
    obtain ⟨h, hh⟩ := hacc ((mainRun cfg engine).calls.length - 1) (by omega)
    obtain ⟨_, _, hlast⟩ := mainRun_answer cfg engine _ _ hh
    exact (hlast (by omega)).2 ⟨h, rfl⟩
  refine ⟨hok, ?_⟩
  clear hacc hpos
  revert hok
  unfold mainRun
  dsimp only
  repeat' split
  all_goals simp_all [Run.answer, Run.published, Value.append, Value.lit, Value.ofCall,
    Request.kind]

/-- Instance of C10: the outputs of the run on `exampleConfig`. -/
theorem main_outputs_witness :
    (mainRun exampleConfig sampleEngine).err = none ∧
    (mainRun exampleConfig sampleEngine).exports.length = 4 :=
  have h := main_outputs exampleConfig sampleEngine (by
    intro i hi
    have h13 : (mainRun exampleConfig sampleEngine).calls.length = 13 := by decide
    rw [h13] at hi
    have hcases : i = 0 ∨ i = 1 ∨ i = 2 ∨ i = 3 ∨ i = 4 ∨ i = 5 ∨ i = 6 ∨ i = 7 ∨ i = 8 ∨
        i = 9 ∨ i = 10 ∨ i = 11 ∨ i = 12 := by omega
    rcases hcases with h | h | h | h | h | h | h | h | h | h | h | h | h <;> subst h <;>
      exact ⟨_, rfl⟩)
  ⟨h.1, let ⟨_, _, _, _, _, _, _, _, h4⟩ := h.2; h4⟩

/-! ## Shape of the graph -/

/-- C6, as stated, fails: a successful run makes twelve resource declarations, not
nine. -/
theorem nine_resources_counterexample :
    (mainRun unsetConfig sampleEngine).err = none ∧
    ((mainRun unsetConfig sampleEngine).calls.filter Request.isResource).length = 12 ∧
    ((mainRun unsetConfig sampleEngine).calls.filter Request.isResource).length ≠ 9 := by
  decide

/-- C6, amended: a run of `main` without error makes exactly thirteen calls, twelve
resource declarations and one zone lookup, whose kinds and whose references to one
another are the same whatever the configuration and the answers of the engine. -/
theorem main_fixed_graph {ε : Type} (cfg : Config) (engine : Engine ε)
    (hok : (mainRun cfg engine).err = none) :
    (mainRun cfg engine).calls.length = 13 ∧
    ((mainRun cfg engine).calls.filter Request.isResource).length = 12 ∧
    (mainRun cfg engine).calls.map Request.kind = declarationOrder ∧
    (mainRun cfg engine).calls.map Request.refs = referenceTable := by
  revert hok
  unfold mainRun
  dsimp only
  repeat' split
  all_goals first
    | (intro h; simp at h; done)
    | (intro _; exact ⟨rfl, rfl, rfl, rfl⟩)

/-- Instance of the amended C6. -/
theorem main_fixed_graph_witness :
    (mainRun exampleConfig sampleEngine).calls.map Request.kind = declarationOrder :=
  (main_fixed_graph exampleConfig sampleEngine (by decide)).2.2.1


/-! ## Wiring -/

/-- C7: in every run without error exactly two forwarding rules are declared: one with
port range "80" whose target is the self link of the HTTP proxy handle, one with port
range "443" whose target is the self link of the HTTPS proxy handle; both have protocol
"TCP" and both carry the address of the handle of the one global address declared, at
position 4. -/
theorem main_forwarding_rules {ε : Type} (cfg : Config) (engine : Engine ε)
    (hok : (mainRun cfg engine).err = none) :
    ∃ ip httpProxy httpsProxy : Handle,
      (mainRun cfg engine).answer engine 4 = some (.ok ip) ∧
      (mainRun cfg engine).answer engine 8 = some (.ok httpProxy) ∧
      (mainRun cfg engine).answer engine 11 = some (.ok httpsProxy) ∧
      ((mainRun cfg engine).calls.map Request.kind)[4]? = some Kind.GlobalAddress ∧
      ((mainRun cfg engine).calls.map Request.kind)[8]? = some Kind.TargetHttpProxy ∧
      ((mainRun cfg engine).calls.map Request.kind)[11]? = some Kind.TargetHttpsProxy ∧
      ((mainRun cfg engine).calls.filter
        (fun q => q.kind == Kind.GlobalAddress)).length = 1 ∧
      (mainRun cfg engine).calls.filter (fun q => q.kind == Kind.GlobalForwardingRule) =
        [ Request.NewGlobalForwardingRule "http-forwarding-rule"
            { IpAddress := Value.ofCall 4 ip.Address
              IpProtocol := Value.lit "TCP"
              PortRange := Value.lit "80"
              Target := Value.ofCall 8 httpProxy.SelfLink },
          Request.NewGlobalForwardingRule "https-forwarding-rule"
            { IpAddress := Value.ofCall 4 ip.Address
              IpProtocol := Value.lit "TCP"
              PortRange := Value.lit "443"
              Target := Value.ofCall 11 httpsProxy.SelfLink } ] := by
  revert hok
  unfold mainRun
  dsimp only
  repeat' split
  all_goals first
    | (intro h; simp at h; done)
    | (intro _
       exact ⟨_, _, _, congrArg some (by assumption), congrArg some (by assumption),
         congrArg some (by assumption), rfl, rfl, rfl, rfl, rfl⟩)

/-- Instance of C7 on `exampleConfig`. -/
theorem main_forwarding_rules_witness :
    ((mainRun exampleConfig sampleEngine).calls.filter
      (fun q => q.kind == Kind.GlobalForwardingRule)).length = 2 :=
  let ⟨_, _, _, _, _, _, _, _, _, _, h⟩ :=
    main_forwarding_rules exampleConfig sampleEngine (by decide)
  by rw [h]; rfl


/-- C8: whenever the run reaches the record set (call number 6), the calls at positions
4 and 5 were the global address and the lookup of the zone named after the resolved
domain, both accepted, and the record set is declared as "dns" with name the resolved
`appHostName`, then ".", then the `DnsName` of the looked-up zone; type "A"; TTL 300;
managed zone the `Name` of the looked-up zone; record data the one-element list holding
the `Address` of the global address handle.  With `domainName` resolved to "example.com"
and `appHostName` to "app", the zone looked up is "example-com" and the record name is
"app." followed by the zone's DNS name. -/
theorem main_record_set {ε : Type} (cfg : Config) (engine : Engine ε) (q : Request)
    (hq : (mainRun cfg engine).calls[6]? = some q) :
    ∃ ip zone : Handle,
      (mainRun cfg engine).answer engine 4 = some (.ok ip) ∧
      (mainRun cfg engine).answer engine 5 = some (.ok zone) ∧
      (mainRun cfg engine).calls[4]? = some (Request.NewGlobalAddress "ip") ∧
      (mainRun cfg engine).calls[5]? = some (Request.LookupManagedZone
        { Name := Value.lit (ReplaceAll
            (getValueWithFallback cfg "domainName" "super-awesome-test-site.com") "." "-") }) ∧
      q = Request.NewRecordSet "dns"
        { Name := ⟨getValueWithFallback cfg "appHostName" "app" ++ "." ++ zone.DnsName, [5]⟩
          Type_ := Value.lit "A"
          Ttl := 300
          ManagedZone := Value.ofCall 5 zone.Name
          Rrdatas := [Value.ofCall 4 ip.Address] } ∧
      (getValueWithFallback cfg "domainName" "super-awesome-test-site.com" = "example.com" →
        getValueWithFallback cfg "appHostName" "app" = "app" →
        (mainRun cfg engine).calls[5]? = some (Request.LookupManagedZone
          { Name := Value.lit "example-com" }) ∧
        ∃ name args, q = Request.NewRecordSet name args ∧
          args.Name.val = "app." ++ zone.DnsName) := by
  have main : ∃ ip zone : Handle,
      (mainRun cfg engine).answer engine 4 = some (.ok ip) ∧
      (mainRun cfg engine).answer engine 5 = some (.ok zone) ∧
      (mainRun cfg engine).calls[4]? = some (Request.NewGlobalAddress "ip") ∧
      (mainRun cfg engine).calls[5]? = some (Request.LookupManagedZone
        { Name := Value.lit (ReplaceAll
            (getValueWithFallback cfg "domainName" "super-awesome-test-site.com") "." "-") }) ∧
      q = Request.NewRecordSet "dns"
        { Name := ⟨getValueWithFallback cfg "appHostName" "app" ++ "." ++ zone.DnsName, [5]⟩
          Type_ := Value.lit "A"
          Ttl := 300
          ManagedZone := Value.ofCall 5 zone.Name
          Rrdatas := [Value.ofCall 4 ip.Address] } := by
    revert hq
    unfold mainRun
    dsimp only
    repeat' split
    all_goals first
      | (intro h; simp at h; done)
      | (intro h
         have hq2 := (Option.some.inj h).symm
         exact ⟨_, _, congrArg some (by assumption), congrArg some (by assumption),
           rfl, rfl, hq2⟩)
  obtain ⟨ip, zone, h4, h5, hc4, hc5, hrec⟩ := main
  refine ⟨ip, zone, h4, h5, hc4, hc5, hrec, ?_⟩
  intro hd ha
  have hz : ReplaceAll "example.com" "." "-" = "example-com" := by decide
  refine ⟨by rw [hc5, hd, hz], _, _, hrec, ?_⟩
  show getValueWithFallback cfg "appHostName" "app" ++ "." ++ zone.DnsName = _
  rw [ha]
  rfl

/-- Instance of C8 on `exampleConfig`, where the zone's DNS name is "example.com.". -/
theorem main_record_set_witness :
    ∃ ip zone : Handle,
      (mainRun exampleConfig sampleEngine).answer sampleEngine 5 = some (.ok zone) ∧
      (mainRun exampleConfig sampleEngine).calls[6]? = some (Request.NewRecordSet "dns"
        { Name := ⟨getValueWithFallback exampleConfig "appHostName" "app" ++ "."
            ++ zone.DnsName, [5]⟩
          Type_ := Value.lit "A"
          Ttl := 300
          ManagedZone := Value.ofCall 5 zone.Name
          Rrdatas := [Value.ofCall 4 ip.Address] }) :=
  let ⟨ip, zone, _, h5, _, _, hrec, _⟩ :=
    main_record_set exampleConfig sampleEngine
      ((mainRun exampleConfig sampleEngine).calls.getD 6 (Request.NewGlobalAddress ""))
      (by decide)
  ⟨ip, zone, h5, hrec ▸ (by decide)⟩


/-! ## Order of the declarations -/

theorem mainRun_refs {ε : Type} (cfg : Config) (engine : Engine ε) :
    (mainRun cfg engine).calls.map Request.refs
      = referenceTable.take (mainRun cfg engine).calls.length := by
  unfold mainRun
  dsimp only
  repeat' split
  all_goals rfl

theorem referenceTable_earlier :
    ∀ i, i < 13 → ∀ j ∈ referenceTable[i]?.getD [], j < i := by
  decide

theorem mainRun_references_lt {ε : Type} (cfg : Config) (engine : Engine ε) (i j : Nat)
    (h : (mainRun cfg engine).references i j) :
    j < i ∧ i < (mainRun cfg engine).calls.length := by
  obtain ⟨q, hq, hj⟩ := h
  have hi : i < (mainRun cfg engine).calls.length :=
    (List.getElem?_eq_some_iff.1 hq).1
  have h13 := (mainRun_kinds cfg engine).2
  have hmap : ((mainRun cfg engine).calls.map Request.refs)[i]? = some q.refs := by
    simp [List.getElem?_map, hq]
  rw [mainRun_refs, List.getElem?_take] at hmap
  simp only [hi, if_true] at hmap
  have := referenceTable_earlier i (by omega) j (by rw [hmap]; exact hj)
  exact ⟨this, hi⟩

/-- C9: the order in which `main` makes its calls is a topological order of the
reference relation: whenever call `i` references call `j`, call `j` comes strictly
earlier and the engine accepted it, producing the handle referenced; the relation has no
cycle; and which calls each call references is given by the fixed `referenceTable`. -/
theorem main_topological_order {ε : Type} (cfg : Config) (engine : Engine ε) :
    (∀ i j, (mainRun cfg engine).references i j →
      j < i ∧ ∃ h, (mainRun cfg engine).answer engine j = some (.ok h)) ∧
    (∀ i, ¬ Relation.TransGen (mainRun cfg engine).references i i) ∧
    (mainRun cfg engine).calls.map Request.refs
      = referenceTable.take (mainRun cfg engine).calls.length := by
  refine ⟨?_, ?_, mainRun_refs cfg engine⟩
  · intro i j h
    obtain ⟨hji, hi⟩ := mainRun_references_lt cfg engine i j h
    refine ⟨hji, ?_⟩
    have hj : j < (mainRun cfg engine).calls.length := by omega
    have hans : (mainRun cfg engine).answer engine j
        = some (engine ((mainRun cfg engine).calls.take j) ((mainRun cfg engine).calls[j])) := by
      simp [Run.answer, List.getElem?_eq_getElem hj]
    obtain ⟨_, hmid, _⟩ := mainRun_answer cfg engine j _ hans
    obtain ⟨h, hh⟩ := hmid (by omega)
    exact ⟨h, by rw [hans, hh]⟩
  · intro i hcyc
    have key : ∀ a b, Relation.TransGen (mainRun cfg engine).references a b → b < a := by
      intro a b hab
      induction hab with
      | single h => exact (mainRun_references_lt cfg engine _ _ h).1
      | tail _ h ih => exact Nat.lt_trans (mainRun_references_lt cfg engine _ _ h).1 ih
    exact Nat.lt_irrefl i (key i i hcyc)

/-- Instance of C9: in the run on `exampleConfig` the record set (call 6) references the
global address (call 4), which comes earlier and was accepted. -/
theorem main_topological_order_witness :
    (mainRun exampleConfig sampleEngine).references 6 4 ∧
    (4 < 6 ∧ ∃ h, (mainRun exampleConfig sampleEngine).answer sampleEngine 4
      = some (.ok h)) :=
  have href : (mainRun exampleConfig sampleEngine).references 6 4 :=
    ⟨(mainRun exampleConfig sampleEngine).calls.getD 6 (Request.NewGlobalAddress ""),
      by decide, by decide⟩
  ⟨href, (main_topological_order exampleConfig sampleEngine).1 6 4 href⟩

end PulumiDeploy
